import Mathlib

/-!
Shallow embedding of the `PostgresCatalog` implementation of the iceberg
`Catalog` trait (src/src/catalog/mod.rs).

The catalog registry is the Postgres table `iceberg_tables` with columns
`catalog_name`, `table_namespace`, `table_name`, `metadata_location`,
`previous_metadata_location` and primary key
(`catalog_name`, `table_namespace`, `table_name`).  We model the registry as
a list of rows and give each SQL statement issue by the Rust code its
standard relational meaning.  SQL strings are modelled as lists of
characters.  The object store (external collaborator, used through
`object_store.get(path)`) is a partial map from paths to byte strings, and
the table-metadata codec (`serde_json::from_str` into `TableMetadata`) is a
partial decoding function; `none` models the respective failure.
-/

namespace IcebergCatalogPostgres

/-- A SQL string value / Rust `String`, modelled as its list of characters. -/
abbrev Str := List Char

/-- The namespace separator used by `TableIdentifier`/`Namespace` formatting
(`format!("{}.{}", namespace, name)` and the dotted namespace rendering). -/
def nsSep : Char := '.'

/-- Modelled from the spec: the `Namespace` of `iceberg_rs` is an ordered
sequence of segments "serialized as a dotted string"; `format!("{}", namespace)`
in the source renders it by joining the segments with `.`. -/
def formatNamespace (ns : List Str) : Str := List.intercalate [nsSep] ns

/-- A table identifier: namespace segments plus a table name
(`TableIdentifier` of `iceberg_rs`). -/
structure Identifier where
  nameSpace : List Str
  name : Str
deriving DecidableEq

/-- `format!("{}.{}", namespace, name)`: the dotted rendering of a full
identifier, as built in `list_tables` before re-parsing. -/
def formatIdentifier (id : Identifier) : Str :=
  formatNamespace id.nameSpace ++ nsSep :: id.name

/-- Modelled from the spec: `TableIdentifier::parse` splits a dotted string
into segments; the namespace is the sequence of leading segments and the
table name the last one, every segment must be non-empty and a namespace
must have at least one segment. -/
def parseIdentifier (s : Str) : Option Identifier :=
  let parts := s.splitOn nsSep
  match parts.getLast? with
  | none => none
  | some last =>
    if decide (2 ≤ parts.length) && parts.all (fun p => !p.isEmpty) then
      some ⟨parts.dropLast, last⟩
    else none

/-- Modelled from the spec: an identifier is accepted when its namespace has
at least one segment and every segment (and the table name) is non-empty and
does not contain the separator. -/
def acceptedIdentifier (id : Identifier) : Bool :=
  !id.nameSpace.isEmpty &&
    (id.nameSpace ++ [id.name]).all (fun seg => !seg.isEmpty && !seg.contains nsSep)

/-- A row of the `iceberg_tables` registry table.  `metadata_location` is
never inserted as NULL by this catalog; `previous_metadata_location` is NULL
until the first successful `update_table`. -/
structure CatalogEntry where
  catalog_name : Str
  table_namespace : Str
  table_name : Str
  metadata_location : Str
  previous_metadata_location : Option Str
deriving DecidableEq

/-- The registry: the rows of `iceberg_tables`. -/
abbrev Registry := List CatalogEntry

/-- The state a `PostgresCatalog` operates on: the registry rows behind the
Postgres client, and the object store (a partial map from location strings
to contents; `none` models a failing read). -/
structure CatalogState where
  registry : Registry
  store : Str → Option Str

/-- Decoded table metadata is opaque to this catalog. -/
abbrev TableMetadata := Str

/-- The table-metadata codec (`serde_json::from_str::<TableMetadata>` over
the fetched bytes); `none` models a decode failure. -/
abbrev Decoder := Str → Option TableMetadata

/-- The error kinds surfaced by the catalog operations (the Rust code wraps
each into `anyhow::Error` with a fixed message, listed at each use site). -/
inductive CatalogError where
  /-- "… failed. No table matched the identifier." -/
  | NotFound
  /-- "Registering table failed. Table already exists" -/
  | AlreadyExists
  /-- "Updating the table failed." (the compare-and-swap affected no row) -/
  | CommitConflict
  /-- more than one row affected where the primary key promises at most one -/
  | IntegrityError
  /-- a registry / object-store I/O failure surfaced via `anyhow!(err)` -/
  | BackendError
  /-- the fetched bytes did not decode as table metadata -/
  | DecodeError
  /-- `invalidate_table`: the carried message is "Not implemented." -/
  | NotImplemented (msg : Str)
deriving DecidableEq

/-- The handle returned by `load_table`
(`Table::new_metastore_table(identifier, catalog, metadata, path)`). -/
structure TableHandle where
  identifier : Identifier
  metadata : TableMetadata
  metadata_location : Str
deriving DecidableEq

/-- The WHERE clause shared by `table_exists`, `drop_table`, `load_table`
and the key columns of `update_table`/`register_table`:
`catalog_name = self.name AND table_namespace = format!("{}", namespace)
AND table_name = identifier.name()`. -/
def entryMatches (catalogName : Str) (id : Identifier) (e : CatalogEntry) : Bool :=
  decide (e.catalog_name = catalogName ∧
    e.table_namespace = formatNamespace id.nameSpace ∧
    e.table_name = id.name)

/-- Two rows agree on the primary-key columns
(`catalog_name`, `table_namespace`, `table_name`). -/
def sameKey (a b : CatalogEntry) : Bool :=
  decide (a.catalog_name = b.catalog_name ∧
    a.table_namespace = b.table_namespace ∧
    a.table_name = b.table_name)

/-- The PRIMARY KEY constraint installed by `initialize`: no two rows of the
registry share their key columns. -/
def pkUniq : Registry → Bool
  | [] => true
  | e :: rest => rest.all (fun x => !(sameKey e x)) && pkUniq rest

/-- `table_exists`: `SELECT EXISTS (SELECT 1 FROM iceberg_tables WHERE …)` —
true iff some row matches the identifier. -/
def table_exists (catalogName : Str) (s : CatalogState) (id : Identifier) : Bool :=
  s.registry.any (entryMatches catalogName id)

/-- `load_table`: `SELECT metadata_location FROM iceberg_tables WHERE …`;
on exactly one row, fetch the object at `metadata_location`, decode it, and
build the handle; zero rows is "No table matched the identifier.", several
rows is "There are multiple catalog entries that matched the identifier.". -/
def load_table (decode : Decoder) (catalogName : Str) (s : CatalogState)
    (id : Identifier) : Except CatalogError TableHandle :=
  match s.registry.filter (entryMatches catalogName id) with
  | [] => .error .NotFound
  | [e] =>
    match s.store e.metadata_location with
    | none => .error .BackendError
    | some bytes =>
      match decode bytes with
      | none => .error .DecodeError
      | some metadata => .ok ⟨id, metadata, e.metadata_location⟩
  | _ => .error .IntegrityError

/-- `drop_table`: `DELETE FROM iceberg_tables WHERE …`; exactly one row
deleted is success, zero is "Dropping table failed. No table matched the
identifier.", several is "More than one table was dropped from the catalog.". -/
def drop_table (catalogName : Str) (s : CatalogState) (id : Identifier) :
    Except CatalogError Unit × CatalogState :=
  let n := (s.registry.filter (entryMatches catalogName id)).length
  let s' : CatalogState :=
    { s with registry := s.registry.filter (fun e => !(entryMatches catalogName id e)) }
  if n = 1 then (.ok (), s')
  else if n = 0 then (.error .NotFound, s')
  else (.error .IntegrityError, s')

/-- The message carried by the `invalidate_table` error. -/
def notImplementedMessage : Str := "Not implemented.".toList

/-- `invalidate_table`: always `Err(anyhow!("Not implemented."))`. -/
def invalidate_table (catalogName : Str) (s : CatalogState) (id : Identifier) :
    Except CatalogError Unit × CatalogState :=
  (.error (.NotImplemented notImplementedMessage), s)

/-- The row inserted by `register_table`: `VALUES (self.name, namespace,
table_name, metadata_file_location, NULL)`. -/
def newEntry (catalogName : Str) (id : Identifier) (metadata_file_location : Str) :
    CatalogEntry :=
  ⟨catalogName, formatNamespace id.nameSpace, id.name, metadata_file_location, none⟩

/-- `register_table`: `INSERT INTO iceberg_tables … ON CONFLICT (catalog_name,
table_namespace, table_name) DO NOTHING`; one row inserted chains into
`load_table`, zero rows is "Registering table failed. Table already exists". -/
def register_table (decode : Decoder) (catalogName : Str) (s : CatalogState)
    (id : Identifier) (metadata_file_location : Str) :
    Except CatalogError TableHandle × CatalogState :=
  if s.registry.any (entryMatches catalogName id) then
    (.error .AlreadyExists, s)
  else
    let s' : CatalogState :=
      { s with registry := s.registry ++ [newEntry catalogName id metadata_file_location] }
    (load_table decode catalogName s' id, s')

/-- The full WHERE clause of the conditional UPDATE: the key columns match
and additionally `metadata_location = previous_metadata_file_location`. -/
def updateMatches (catalogName : Str) (id : Identifier)
    (previous_metadata_file_location : Str) (e : CatalogEntry) : Bool :=
  entryMatches catalogName id e &&
    decide (e.metadata_location = previous_metadata_file_location)

/-- The SET clause applied to every row matched by the conditional UPDATE:
`metadata_location = new, previous_metadata_location = previous`. -/
def applyUpdate (catalogName : Str) (id : Identifier)
    (metadata_file_location previous_metadata_file_location : Str)
    (e : CatalogEntry) : CatalogEntry :=
  if updateMatches catalogName id previous_metadata_file_location e then
    { e with metadata_location := metadata_file_location,
             previous_metadata_location := some previous_metadata_file_location }
  else e

/-- `update_table`: the compare-and-swap `UPDATE iceberg_tables SET … WHERE
… AND metadata_location = previous`; one row affected chains into
`load_table`, zero rows is "Updating the table failed." (a commit conflict),
several rows is "Multiple entries where updated.". -/
def update_table (decode : Decoder) (catalogName : Str) (s : CatalogState)
    (id : Identifier)
    (metadata_file_location previous_metadata_file_location : Str) :
    Except CatalogError TableHandle × CatalogState :=
  let n := (s.registry.filter
    (updateMatches catalogName id previous_metadata_file_location)).length
  let s' : CatalogState :=
    { s with registry := s.registry.map (applyUpdate catalogName id
        metadata_file_location previous_metadata_file_location) }
  if n = 1 then (load_table decode catalogName s' id, s')
  else if n = 0 then (.error .CommitConflict, s')
  else (.error .IntegrityError, s')

/-- `list_tables`: `SELECT … FROM iceberg_tables WHERE catalog_name = self.name
AND table_namespace = format!("{}", namespace)`, then
`TableIdentifier::parse(format!("{}.{}", namespace, name))` on every row. -/
def list_tables (catalogName : Str) (s : CatalogState) (ns : List Str) :
    Except CatalogError (List Identifier) :=
  (s.registry.filter (fun e =>
    decide (e.catalog_name = catalogName ∧ e.table_namespace = formatNamespace ns))).mapM
    (fun e =>
      match parseIdentifier (e.table_namespace ++ nsSep :: e.table_name) with
      | some id => Except.ok id
      | none => Except.error CatalogError.DecodeError)

/-- `Except.isOk` for catalog results. -/
def isOk {ε α : Type} : Except ε α → Bool
  | .ok _ => true
  | .error _ => false

/-! ## Helper lemmas -/

lemma intercalate_singleton_seg (x : Char) (a : Str) :
    List.intercalate [x] [a] = a := by
  simp [List.intercalate]

lemma intercalate_cons_cons_seg (x : Char) (a b : Str) (t : List Str) :
    List.intercalate [x] (a :: b :: t) = a ++ x :: List.intercalate [x] (b :: t) := by
  simp [List.intercalate, List.intersperse_cons_cons]

lemma splitOn_intercalate_seg (parts : List Str) (hne : parts ≠ [])
    (hfree : ∀ seg ∈ parts, ∀ c ∈ seg, c ≠ nsSep) :
    (List.intercalate [nsSep] parts).splitOn nsSep = parts := by
  induction parts with
  | nil => exact absurd rfl hne
  | cons a t ih =>
    cases t with
    | nil =>
      rw [intercalate_singleton_seg]
      exact List.splitOnP_eq_single _ _ fun c hc => by
        simp [hfree a (List.mem_cons_self a []) c hc]
    | cons b t' =>
      rw [intercalate_cons_cons_seg]
      show (a ++ nsSep :: List.intercalate [nsSep] (b :: t')).splitOnP (· == nsSep) = _
      rw [List.splitOnP_first _ _
        (fun c hc => by simp [hfree a (List.mem_cons_self a _) c hc]) nsSep (by simp)]
      have ht : (List.intercalate [nsSep] (b :: t')).splitOn nsSep = b :: t' :=
        ih (by simp) fun seg hs => hfree seg (List.mem_cons_of_mem a hs)
      exact congrArg (a :: ·) ht

lemma formatNamespace_append_name :
    ∀ (ns : List Str), ns ≠ [] → ∀ (nm : Str),
      formatNamespace ns ++ nsSep :: nm = List.intercalate [nsSep] (ns ++ [nm])
  | [a], _, nm => by
    rw [formatNamespace, intercalate_singleton_seg, List.singleton_append,
      intercalate_cons_cons_seg, intercalate_singleton_seg]
  | a :: b :: t, _, nm => by
    have ih := formatNamespace_append_name (b :: t) (by simp) nm
    rw [formatNamespace] at ih
    show List.intercalate [nsSep] (a :: b :: t) ++ nsSep :: nm
      = List.intercalate [nsSep] (a :: b :: (t ++ [nm]))
    rw [intercalate_cons_cons_seg, intercalate_cons_cons_seg, List.append_assoc,
      List.cons_append, ih, List.cons_append]

lemma formatIdentifier_eq_intercalate (id : Identifier) (hns : id.nameSpace ≠ []) :
    formatIdentifier id = List.intercalate [nsSep] (id.nameSpace ++ [id.name]) :=
  formatNamespace_append_name id.nameSpace hns id.name

lemma entryMatches_newEntry (c : Str) (id : Identifier) (loc : Str) :
    entryMatches c id (newEntry c id loc) = true := by
  simp [entryMatches, newEntry]

lemma sameKey_of_entryMatches {c : Str} {id : Identifier} {a b : CatalogEntry}
    (ha : entryMatches c id a = true) (hb : entryMatches c id b = true) :
    sameKey a b = true := by
  simp only [entryMatches, decide_eq_true_eq] at ha hb
  simp [sameKey, ha.1, ha.2.1, ha.2.2, hb.1, hb.2.1, hb.2.2]

lemma pkUniq_filter_le_one (c : Str) (id : Identifier) :
    ∀ (reg : Registry), pkUniq reg = true →
      (reg.filter (entryMatches c id)).length ≤ 1
  | [], _ => by simp
  | e :: rest, h => by
    simp only [pkUniq, Bool.and_eq_true, List.all_eq_true] at h
    obtain ⟨hall, hrest⟩ := h
    rw [List.filter_cons]
    by_cases he : entryMatches c id e = true
    · rw [if_pos he]
      have hnil : rest.filter (entryMatches c id) = [] := by
        apply List.filter_eq_nil_iff.mpr
        intro x hx hpx
        have hk := sameKey_of_entryMatches he hpx
        have hne := hall x hx
        rw [hk] at hne
        simp at hne
      simp [hnil]
    · rw [if_neg he]
      exact pkUniq_filter_le_one c id rest hrest

lemma length_filter_le_of_imp {α : Type} {p q : α → Bool}
    (h : ∀ a, p a = true → q a = true) :
    ∀ (l : List α), (l.filter p).length ≤ (l.filter q).length
  | [] => by simp
  | a :: t => by
    rw [List.filter_cons, List.filter_cons]
    by_cases hp : p a = true
    · rw [if_pos hp, if_pos (h a hp)]
      simpa using length_filter_le_of_imp h t
    · rw [if_neg hp]
      by_cases hq : q a = true
      · rw [if_pos hq]
        exact Nat.le_succ_of_le (length_filter_le_of_imp h t)
      · rw [if_neg hq]
        exact length_filter_le_of_imp h t

lemma updateMatches_imp_entryMatches (c : Str) (id : Identifier) (old : Str) :
    ∀ e, updateMatches c id old e = true → entryMatches c id e = true := by
  intro e h
  rw [updateMatches, Bool.and_eq_true] at h
  exact h.1

lemma applyUpdate_catalog_name (c : Str) (id : Identifier) (n o : Str)
    (e : CatalogEntry) : (applyUpdate c id n o e).catalog_name = e.catalog_name := by
  unfold applyUpdate
  split <;> rfl

lemma applyUpdate_table_namespace (c : Str) (id : Identifier) (n o : Str)
    (e : CatalogEntry) : (applyUpdate c id n o e).table_namespace = e.table_namespace := by
  unfold applyUpdate
  split <;> rfl

lemma applyUpdate_table_name (c : Str) (id : Identifier) (n o : Str)
    (e : CatalogEntry) : (applyUpdate c id n o e).table_name = e.table_name := by
  unfold applyUpdate
  split <;> rfl

lemma entryMatches_applyUpdate (c' : Str) (id' : Identifier) (c : Str)
    (id : Identifier) (n o : Str) (e : CatalogEntry) :
    entryMatches c' id' (applyUpdate c id n o e) = entryMatches c' id' e := by
  simp [entryMatches, applyUpdate_catalog_name, applyUpdate_table_namespace,
    applyUpdate_table_name]

lemma sameKey_applyUpdate (c : Str) (id : Identifier) (n o : Str)
    (a b : CatalogEntry) :
    sameKey (applyUpdate c id n o a) (applyUpdate c id n o b) = sameKey a b := by
  simp [sameKey, applyUpdate_catalog_name, applyUpdate_table_namespace,
    applyUpdate_table_name]

lemma pkUniq_iff_pairwise : ∀ (reg : Registry),
    pkUniq reg = true ↔ reg.Pairwise (fun a b => sameKey a b = false)
  | [] => by simp [pkUniq]
  | e :: rest => by
    rw [pkUniq, Bool.and_eq_true, List.all_eq_true, List.pairwise_cons,
      pkUniq_iff_pairwise rest]
    constructor
    · rintro ⟨h1, h2⟩
      exact ⟨fun b hb => by simpa using h1 b hb, h2⟩
    · rintro ⟨h1, h2⟩
      exact ⟨fun b hb => by simp [h1 b hb], h2⟩

lemma pkUniq_filter (q : CatalogEntry → Bool) {reg : Registry}
    (h : pkUniq reg = true) : pkUniq (reg.filter q) = true := by
  rw [pkUniq_iff_pairwise] at h ⊢
  exact h.sublist (List.filter_sublist reg)

lemma pkUniq_append_singleton {reg : Registry} {x : CatalogEntry}
    (h : pkUniq reg = true) (hx : ∀ e ∈ reg, sameKey e x = false) :
    pkUniq (reg ++ [x]) = true := by
  rw [pkUniq_iff_pairwise] at h ⊢
  rw [List.pairwise_append]
  refine ⟨h, by simp, ?_⟩
  intro a ha b hb
  simp only [List.mem_singleton] at hb
  subst hb
  exact hx a ha

lemma pkUniq_map_applyUpdate (c : Str) (id : Identifier) (n o : Str)
    {reg : Registry} (h : pkUniq reg = true) :
    pkUniq (reg.map (applyUpdate c id n o)) = true := by
  rw [pkUniq_iff_pairwise] at h ⊢
  rw [List.pairwise_map]
  exact h.imp fun hab => by rw [sameKey_applyUpdate]; exact hab

lemma filter_entryMatches_map_applyUpdate (c : Str) (id : Identifier)
    (n o : Str) (reg : Registry) :
    (reg.map (applyUpdate c id n o)).filter (entryMatches c id) =
      (reg.filter (entryMatches c id)).map (applyUpdate c id n o) := by
  rw [List.filter_map]
  congr 1
  apply List.filter_congr
  intro a ha
  exact entryMatches_applyUpdate c id c id n o a

lemma filter_entryMatches_of_updateMatches_singleton {c : Str} {id : Identifier}
    {old : Str} {reg : Registry} {e0 : CatalogEntry}
    (h : pkUniq reg = true)
    (hf : reg.filter (updateMatches c id old) = [e0]) :
    reg.filter (entryMatches c id) = [e0] := by
  have he0mem : e0 ∈ reg.filter (updateMatches c id old) := by
    rw [hf]
    exact List.mem_singleton.mpr rfl
  rw [List.mem_filter] at he0mem
  obtain ⟨hmem, hupd⟩ := he0mem
  have hentry : entryMatches c id e0 = true :=
    updateMatches_imp_entryMatches c id old e0 hupd
  have hmemf : e0 ∈ reg.filter (entryMatches c id) :=
    List.mem_filter.mpr ⟨hmem, hentry⟩
  have hle := pkUniq_filter_le_one c id reg h
  cases hx : reg.filter (entryMatches c id) with
  | nil =>
    rw [hx] at hmemf
    simp at hmemf
  | cons a t =>
    rw [hx] at hmemf hle
    cases t with
    | nil =>
      simp only [List.mem_singleton] at hmemf
      rw [hmemf]
    | cons b t' => simp at hle

lemma filter_of_filter_not (p : CatalogEntry → Bool) (reg : Registry) :
    (reg.filter (fun e => !(p e))).filter p = [] := by
  apply List.filter_eq_nil_iff.mpr
  intro a ha
  have h2 := (List.mem_filter.mp ha).2
  simp only [Bool.not_eq_true'] at h2
  simp [h2]

lemma any_of_filter_not (p : CatalogEntry → Bool) (reg : Registry) :
    (reg.filter (fun e => !(p e))).any p = false := by
  rw [List.any_eq_false]
  intro a ha
  have h2 := (List.mem_filter.mp ha).2
  simp only [Bool.not_eq_true'] at h2
  simp [h2]

/-! ## The claims -/

/-- C7: joining namespace segments (and the table name) into the dotted
string stored in the registry and re-splitting it, as `list_tables` does to
rebuild identifiers, is exactly reversible on every accepted identifier:
parsing the formatted form yields the original segments again (segments
containing the separator are rejected by `acceptedIdentifier`, not merged). -/
theorem identifier_roundtrip (id : Identifier)
    (h : acceptedIdentifier id = true) :
    parseIdentifier (formatIdentifier id) = some id := by
  simp only [acceptedIdentifier, Bool.and_eq_true, List.all_eq_true,
    Bool.not_eq_true', List.isEmpty_eq_false, List.isEmpty_iff] at h
  obtain ⟨hns, hsegs⟩ := h
  have hfree : ∀ seg ∈ id.nameSpace ++ [id.name], ∀ c ∈ seg, c ≠ nsSep := by
    intro seg hs c hc hcx
    have h2 := (hsegs seg hs).2
    rw [hcx] at hc
    have hnm : nsSep ∉ seg := by simpa using h2
    exact hnm hc
  have hsplit : (formatIdentifier id).splitOn nsSep = id.nameSpace ++ [id.name] := by
    rw [formatIdentifier_eq_intercalate id hns]
    exact splitOn_intercalate_seg _ (by simp) hfree
  simp only [parseIdentifier, hsplit, List.getLast?_concat]
  have hlen : 2 ≤ (id.nameSpace ++ [id.name]).length := by
    have hpos : 0 < id.nameSpace.length := List.length_pos.mpr hns
    simp only [List.length_append, List.length_singleton]
    omega
  have hall : (id.nameSpace ++ [id.name]).all (fun p => !p.isEmpty) = true := by
    rw [List.all_eq_true]
    intro seg hs
    simp [List.isEmpty_iff, (hsegs seg hs).1]
  have hcond : (decide (2 ≤ (id.nameSpace ++ [id.name]).length) &&
      (id.nameSpace ++ [id.name]).all (fun p => !p.isEmpty)) = true := by
    rw [Bool.and_eq_true]
    exact ⟨decide_eq_true hlen, hall⟩
  rw [if_pos hcond, List.dropLast_concat]

/-- A concrete identifier used to witness hypotheses at evaluable inputs. -/
def sampleId : Identifier := ⟨["test".toList], "table1".toList⟩

/-- C7 witness: the round trip evaluated on the accepted identifier
`test.table1`. -/
theorem identifier_roundtrip_witness :
    acceptedIdentifier sampleId = true ∧
      parseIdentifier (formatIdentifier sampleId) = some sampleId :=
  ⟨by decide, identifier_roundtrip sampleId (by decide)⟩

lemma drop_table_snd (catalogName : Str) (s : CatalogState) (id : Identifier) :
    (drop_table catalogName s id).snd =
      { s with registry := s.registry.filter (fun e => !(entryMatches catalogName id e)) } := by
  simp only [drop_table]
  split
  · rfl
  · split <;> rfl

lemma update_table_snd (decode : Decoder) (catalogName : Str) (s : CatalogState)
    (id : Identifier) (newLoc oldLoc : Str) :
    (update_table decode catalogName s id newLoc oldLoc).snd =
      { s with registry := s.registry.map (applyUpdate catalogName id newLoc oldLoc) } := by
  simp only [update_table]
  split
  · rfl
  · split <;> rfl

/-- C3: `load_table` fails with `NotFound` when no registry entry matches the
identifier and with `IntegrityError` when more than one matches; on exactly
one match it reads the object at the entry's current pointer and decodes it,
propagating a failed object-store read as `BackendError` and a failed decode
as `DecodeError` (never as `NotFound`), and returning the handle on success. -/
theorem load_table_error_paths (decode : Decoder) (catalogName : Str)
    (s : CatalogState) (id : Identifier) :
    (s.registry.filter (entryMatches catalogName id) = [] →
      load_table decode catalogName s id = .error .NotFound)
    ∧ (1 < (s.registry.filter (entryMatches catalogName id)).length →
      load_table decode catalogName s id = .error .IntegrityError)
    ∧ (∀ e, s.registry.filter (entryMatches catalogName id) = [e] →
      (s.store e.metadata_location = none →
        load_table decode catalogName s id = .error .BackendError)
      ∧ (∀ bytes, s.store e.metadata_location = some bytes → decode bytes = none →
        load_table decode catalogName s id = .error .DecodeError)
      ∧ (∀ bytes meta, s.store e.metadata_location = some bytes →
          decode bytes = some meta →
          load_table decode catalogName s id = .ok ⟨id, meta, e.metadata_location⟩)) := by
  refine ⟨?_, ?_, ?_⟩
  · intro h
    simp [load_table, h]
  · intro h
    cases hx : s.registry.filter (entryMatches catalogName id) with
    | nil => rw [hx] at h; simp at h
    | cons a t =>
      cases t with
      | nil => rw [hx] at h; simp at h
      | cons b t' => simp [load_table, hx]
  · intro e h
    refine ⟨?_, ?_, ?_⟩
    · intro hstore
      simp [load_table, h, hstore]
    · intro bytes hstore hdec
      simp [load_table, h, hstore, hdec]
    · intro bytes meta hstore hdec
      simp [load_table, h, hstore, hdec]

/-- C4: `drop_table` deletes the matching registry entry, failing with
`NotFound` when zero rows are deleted and with `IntegrityError` when more
than one row is deleted; after a successful drop, `table_exists` is false
and a subsequent `load_table` fails with `NotFound`. -/
theorem drop_table_removes_entry (decode : Decoder) (catalogName : Str)
    (s : CatalogState) (id : Identifier) :
    ((s.registry.filter (entryMatches catalogName id)).length = 0 →
      (drop_table catalogName s id).fst = .error .NotFound)
    ∧ (1 < (s.registry.filter (entryMatches catalogName id)).length →
      (drop_table catalogName s id).fst = .error .IntegrityError)
    ∧ ((drop_table catalogName s id).fst = .ok () →
      table_exists catalogName (drop_table catalogName s id).snd id = false
      ∧ load_table decode catalogName (drop_table catalogName s id).snd id =
          .error .NotFound) := by
  refine ⟨?_, ?_, ?_⟩
  · intro h
    simp [drop_table, h]
  · intro h
    have h1 : (s.registry.filter (entryMatches catalogName id)).length ≠ 1 := by omega
    have h0 : (s.registry.filter (entryMatches catalogName id)).length ≠ 0 := by omega
    simp [drop_table, h0, h1]
  · intro h
    rw [drop_table_snd]
    constructor
    · exact any_of_filter_not _ _
    · simp [load_table, filter_of_filter_not]

/-- C6: under the primary-key invariant installed by `initialize`,
`table_exists` returns true iff exactly one registry entry matches the
(catalog_name, table_namespace, table_name) triple.  The operation is a pure
SELECT: its type returns only a `Bool`, leaving registry and store untouched. -/
theorem table_exists_iff_unique_match (catalogName : Str) (s : CatalogState)
    (id : Identifier) (h : pkUniq s.registry = true) :
    table_exists catalogName s id = true ↔
      (s.registry.filter (entryMatches catalogName id)).length = 1 := by
  rw [table_exists, List.any_eq_true]
  constructor
  · rintro ⟨x, hx, hpx⟩
    have hmem : x ∈ s.registry.filter (entryMatches catalogName id) :=
      List.mem_filter.mpr ⟨hx, hpx⟩
    have hle := pkUniq_filter_le_one catalogName id s.registry h
    have hpos : 0 < (s.registry.filter (entryMatches catalogName id)).length :=
      List.length_pos.mpr (List.ne_nil_of_mem hmem)
    omega
  · intro h1
    obtain ⟨a, ha⟩ := List.length_eq_one.mp h1
    have hmem : a ∈ s.registry.filter (entryMatches catalogName id) := by
      rw [ha]
      exact List.mem_singleton.mpr rfl
    rw [List.mem_filter] at hmem
    exact ⟨a, hmem.1, hmem.2⟩

/-- C8: `drop_table` modifies only the registry; the object store component
of the state is returned unchanged, so no object — including the one at the
dropped entry's current pointer — is deleted or modified. -/
theorem drop_table_preserves_object_store (catalogName : Str) (s : CatalogState)
    (id : Identifier) : (drop_table catalogName s id).snd.store = s.store := by
  rw [drop_table_snd]

/-- C9: `invalidate_table` always returns the error "Not implemented." and
leaves the registry and the object store unchanged, for every identifier and
every state. -/
theorem invalidate_table_not_implemented (catalogName : Str) (s : CatalogState)
    (id : Identifier) :
    invalidate_table catalogName s id =
      (.error (.NotImplemented notImplementedMessage), s) := rfl

lemma sameKey_newEntry (c : Str) (id : Identifier) (loc : Str) (e : CatalogEntry) :
    sameKey e (newEntry c id loc) = entryMatches c id e := by
  simp [sameKey, newEntry, entryMatches]

/-- C2: `register_table` attempts to insert a new entry whose current
pointer is the given location and whose previous pointer is NULL; when an
entry with the same key exists it fails with `AlreadyExists` leaving the
state (hence the existing entry's pointer) unchanged; when the insert
succeeds it returns the result of `load_table` on the updated state. -/
theorem register_table_insert_or_conflict (decode : Decoder) (catalogName : Str)
    (s : CatalogState) (id : Identifier) (loc : Str) :
    (newEntry catalogName id loc).metadata_location = loc
    ∧ (newEntry catalogName id loc).previous_metadata_location = none
    ∧ ((∃ e ∈ s.registry, entryMatches catalogName id e = true) →
        register_table decode catalogName s id loc = (.error .AlreadyExists, s))
    ∧ ((∀ e ∈ s.registry, entryMatches catalogName id e = false) →
        register_table decode catalogName s id loc =
          (load_table decode catalogName
              { s with registry := s.registry ++ [newEntry catalogName id loc] } id,
            { s with registry := s.registry ++ [newEntry catalogName id loc] })) := by
  refine ⟨rfl, rfl, ?_, ?_⟩
  · intro h
    have hany : s.registry.any (entryMatches catalogName id) = true :=
      List.any_eq_true.mpr h
    simp [register_table, hany]
  · intro h
    have hany : s.registry.any (entryMatches catalogName id) = false := by
      rw [List.any_eq_false]
      intro x hx
      simp [h x hx]
    simp [register_table, hany]

/-- C10: `register_table` is not atomic with respect to its error result:
when no key conflict exists but the object at the metadata location cannot
be read or does not decode, the call returns an error even though the new
entry has been inserted and remains in the registry. -/
theorem register_table_not_atomic (decode : Decoder) (catalogName : Str)
    (s : CatalogState) (id : Identifier) (loc : Str)
    (hnoconf : ∀ e ∈ s.registry, entryMatches catalogName id e = false)
    (hfail : s.store loc = none ∨
      ∃ bytes, s.store loc = some bytes ∧ decode bytes = none) :
    isOk (register_table decode catalogName s id loc).fst = false
    ∧ newEntry catalogName id loc ∈
        (register_table decode catalogName s id loc).snd.registry := by
  have hany : s.registry.any (entryMatches catalogName id) = false := by
    rw [List.any_eq_false]
    intro x hx
    simp [hnoconf x hx]
  have hreg := (register_table_insert_or_conflict decode catalogName s id loc).2.2.2 hnoconf
  rw [hreg]
  constructor
  · have hfilter : (s.registry ++ [newEntry catalogName id loc]).filter
        (entryMatches catalogName id) = [newEntry catalogName id loc] := by
      rw [List.filter_append]
      have h1 : s.registry.filter (entryMatches catalogName id) = [] :=
        List.filter_eq_nil_iff.mpr fun a ha => by simp [hnoconf a ha]
      have h2 : [newEntry catalogName id loc].filter (entryMatches catalogName id)
          = [newEntry catalogName id loc] := by
        simp [List.filter_cons, entryMatches_newEntry]
      rw [h1, h2, List.nil_append]
    have hml : (newEntry catalogName id loc).metadata_location = loc := rfl
    rcases hfail with hnone | ⟨bytes, hsome, hdec⟩
    · simp only [load_table, hfilter, hml, hnone, isOk]
    · simp only [load_table, hfilter, hml, hsome, hdec, isOk]
  · simp

/-- C5: the invariant that at most one registry entry exists per
(catalog_name, table_namespace, table_name) key holds in the initial empty
registry and is preserved by `register_table` (which never inserts a second
entry for an existing key), `update_table` (which only rewrites pointer
columns) and `drop_table` (which only removes rows); `list_tables`,
`load_table` and `table_exists` return no state and are read-only by type. -/
theorem primary_key_invariant_preserved (decode : Decoder) (catalogName : Str)
    (s : CatalogState) (id : Identifier) (loc newLoc oldLoc : Str) :
    pkUniq ([] : Registry) = true
    ∧ (pkUniq s.registry = true →
        pkUniq (register_table decode catalogName s id loc).snd.registry = true)
    ∧ (pkUniq s.registry = true →
        pkUniq (update_table decode catalogName s id newLoc oldLoc).snd.registry = true)
    ∧ (pkUniq s.registry = true →
        pkUniq (drop_table catalogName s id).snd.registry = true) := by
  refine ⟨rfl, ?_, ?_, ?_⟩
  · intro h
    by_cases hany : s.registry.any (entryMatches catalogName id) = true
    · simp [register_table, hany, h]
    · rw [Bool.not_eq_true] at hany
      simp only [register_table, hany, Bool.false_eq_true, if_false]
      apply pkUniq_append_singleton h
      intro e he
      rw [sameKey_newEntry]
      rw [List.any_eq_false] at hany
      simpa using hany e he
  · intro h
    rw [update_table_snd]
    exact pkUniq_map_applyUpdate catalogName id newLoc oldLoc h
  · intro h
    rw [drop_table_snd]
    exact pkUniq_filter _ h

/-- C1: the compare-and-swap commit protocol of `update_table`.
Unconditionally, zero affected rows yield `CommitConflict` and more than one
affected row yields `IntegrityError`.  Under the primary-key invariant, and
with the object at the new location readable and decodable, the call
succeeds iff a registry entry for the identifier exists whose current
pointer equals the caller's previous location; on success that entry's
current pointer becomes the new location and its previous pointer the old
one. -/
theorem update_table_commit_protocol (decode : Decoder) (catalogName : Str)
    (s : CatalogState) (id : Identifier) (newLoc oldLoc : Str) :
    (pkUniq s.registry = true →
      (∃ bytes meta, s.store newLoc = some bytes ∧ decode bytes = some meta) →
      (isOk (update_table decode catalogName s id newLoc oldLoc).fst = true ↔
        ∃ e ∈ s.registry, entryMatches catalogName id e = true ∧
          e.metadata_location = oldLoc)
      ∧ (isOk (update_table decode catalogName s id newLoc oldLoc).fst = true →
          ∀ e ∈ (update_table decode catalogName s id newLoc oldLoc).snd.registry,
            entryMatches catalogName id e = true →
              e.metadata_location = newLoc ∧
              e.previous_metadata_location = some oldLoc))
    ∧ ((s.registry.filter (updateMatches catalogName id oldLoc)).length = 0 →
        (update_table decode catalogName s id newLoc oldLoc).fst =
          .error .CommitConflict)
    ∧ (1 < (s.registry.filter (updateMatches catalogName id oldLoc)).length →
        (update_table decode catalogName s id newLoc oldLoc).fst =
          .error .IntegrityError) := by
  refine ⟨?_, ?_, ?_⟩
  · intro huniq hread
    obtain ⟨bytes, meta, hstore, hdec⟩ := hread
    have hle : (s.registry.filter (updateMatches catalogName id oldLoc)).length ≤ 1 :=
      le_trans
        (length_filter_le_of_imp (updateMatches_imp_entryMatches catalogName id oldLoc)
          s.registry)
        (pkUniq_filter_le_one catalogName id s.registry huniq)
    cases hcase : s.registry.filter (updateMatches catalogName id oldLoc) with
    | nil =>
      have hfst : (update_table decode catalogName s id newLoc oldLoc).fst =
          .error .CommitConflict := by
        simp [update_table, hcase]
      refine ⟨?_, ?_⟩
      · rw [hfst]
        simp only [isOk, Bool.false_eq_true, false_iff]
        rintro ⟨e, he, hm, hl⟩
        have hmem : e ∈ s.registry.filter (updateMatches catalogName id oldLoc) :=
          List.mem_filter.mpr ⟨he, by simp [updateMatches, hm, hl]⟩
        rw [hcase] at hmem
        simp at hmem
      · rw [hfst]
        simp [isOk]
    | cons e0 t =>
      cases t with
      | cons b t' =>
        exfalso
        rw [hcase] at hle
        simp at hle
      | nil =>
        have he0 : e0 ∈ s.registry.filter (updateMatches catalogName id oldLoc) := by
          rw [hcase]
          exact List.mem_singleton.mpr rfl
        rw [List.mem_filter] at he0
        obtain ⟨he0mem, he0upd⟩ := he0
        have hfkey : s.registry.filter (entryMatches catalogName id) = [e0] :=
          filter_entryMatches_of_updateMatches_singleton huniq hcase
        have happly : applyUpdate catalogName id newLoc oldLoc e0 = { e0 with metadata_location := newLoc, previous_metadata_location := some oldLoc } := by
          rw [applyUpdate, if_pos he0upd]
        have hfilter' : (s.registry.map (applyUpdate catalogName id newLoc oldLoc)).filter (entryMatches catalogName id) = [{ e0 with metadata_location := newLoc, previous_metadata_location := some oldLoc }] := by
          rw [filter_entryMatches_map_applyUpdate, hfkey, List.map_singleton, happly]
        have hload : load_table decode catalogName { s with registry := s.registry.map (applyUpdate catalogName id newLoc oldLoc) } id = .ok ⟨id, meta, newLoc⟩ := by
          simp only [load_table, hfilter', hstore, hdec]
        have hfst : (update_table decode catalogName s id newLoc oldLoc).fst = .ok ⟨id, meta, newLoc⟩ := by
          simp only [update_table, hcase, List.length_singleton, eq_self_iff_true, if_true]
          exact hload
        refine ⟨?_, ?_⟩
        · rw [hfst]
          simp only [isOk, true_iff]
          rw [updateMatches, Bool.and_eq_true, decide_eq_true_eq] at he0upd
          exact ⟨e0, he0mem, he0upd.1, he0upd.2⟩
        · intro hok e he hm
          rw [update_table_snd] at he
          have hmem : e ∈ (s.registry.map (applyUpdate catalogName id newLoc oldLoc)).filter (entryMatches catalogName id) := List.mem_filter.mpr ⟨he, hm⟩
          rw [hfilter', List.mem_singleton] at hmem
          rw [hmem]
          exact ⟨rfl, rfl⟩
  · intro h
    have hnil : s.registry.filter (updateMatches catalogName id oldLoc) = [] :=
      List.length_eq_zero.mp h
    simp [update_table, hnil]
  · intro h
    have h1 : (s.registry.filter (updateMatches catalogName id oldLoc)).length ≠ 1 := by
      omega
    have h0 : (s.registry.filter (updateMatches catalogName id oldLoc)).length ≠ 0 := by
      omega
    simp [update_table, h0, h1]

/-! ## Concrete witnesses -/

/-- The catalog name used by the concrete witnesses. -/
def sampleCat : Str := "test_catalog".toList

/-- A first metadata location. -/
def locV1 : Str := "loc-v1".toList

/-- A second metadata location. -/
def locV2 : Str := "loc-v2".toList

/-- A codec that accepts every byte string. -/
def sampleDecode : Decoder := fun b => some b

/-- The registry row for `sampleId` at `locV1`. -/
def sampleEntry : CatalogEntry := newEntry sampleCat sampleId locV1

/-- A state with an empty registry and an object store where every read
succeeds. -/
def emptyState : CatalogState := ⟨[], fun p => some p⟩

/-- A state whose registry holds exactly `sampleEntry`, over a store where
every read succeeds. -/
def oneState : CatalogState := ⟨[sampleEntry], fun p => some p⟩

/-- A state with an empty registry over a store where every read fails. -/
def failState : CatalogState := ⟨[], fun p => none⟩

/-- A state whose registry holds the `sampleId` key twice, violating the
primary-key constraint, to exercise the more-than-one-affected-row arm. -/
def dupState : CatalogState := ⟨[sampleEntry, sampleEntry], fun p => some p⟩

/-- C1 witness: the commit protocol evaluated on a registry holding
`sampleId` at `locV1`, swapping it to `locV2`; and the
more-than-one-affected-row arm evaluated on a duplicate-key registry. -/
theorem update_table_commit_protocol_witness :
    pkUniq oneState.registry = true ∧
      (∃ bytes meta, oneState.store locV2 = some bytes ∧
        sampleDecode bytes = some meta) ∧
      (isOk (update_table sampleDecode sampleCat oneState sampleId locV2 locV1).fst
          = true ↔
        ∃ e ∈ oneState.registry, entryMatches sampleCat sampleId e = true ∧
          e.metadata_location = locV1) ∧
      1 < (dupState.registry.filter
        (updateMatches sampleCat sampleId locV1)).length ∧
      (update_table sampleDecode sampleCat dupState sampleId locV2 locV1).fst =
        .error .IntegrityError :=
  ⟨rfl, ⟨locV2, locV2, rfl, rfl⟩,
    ((update_table_commit_protocol sampleDecode sampleCat oneState sampleId locV2
        locV1).1 rfl ⟨locV2, locV2, rfl, rfl⟩).1,
    by decide,
    (update_table_commit_protocol sampleDecode sampleCat dupState sampleId locV2
        locV1).2.2 (by decide)⟩

/-- C2 witness: registering `sampleId` in the empty registry inserts the new
row and chains into `load_table`. -/
theorem register_table_insert_or_conflict_witness :
    (∀ e ∈ emptyState.registry, entryMatches sampleCat sampleId e = false) ∧
      register_table sampleDecode sampleCat emptyState sampleId locV1 =
        (load_table sampleDecode sampleCat
            { emptyState with
              registry := emptyState.registry ++ [newEntry sampleCat sampleId locV1] }
            sampleId,
          { emptyState with
            registry := emptyState.registry ++ [newEntry sampleCat sampleId locV1] }) :=
  ⟨fun e he => absurd he (List.not_mem_nil e),
    (register_table_insert_or_conflict sampleDecode sampleCat emptyState sampleId
        locV1).2.2.2
      fun e he => absurd he (List.not_mem_nil e)⟩

/-- C3 witness: loading from the empty registry fails with `NotFound`. -/
theorem load_table_error_paths_witness :
    emptyState.registry.filter (entryMatches sampleCat sampleId) = [] ∧
      load_table sampleDecode sampleCat emptyState sampleId =
        .error .NotFound :=
  ⟨rfl, (load_table_error_paths sampleDecode sampleCat emptyState sampleId).1 rfl⟩

/-- C4 witness: dropping `sampleId` from a one-row registry succeeds, after
which the table no longer exists and loading it fails with `NotFound`. -/
theorem drop_table_removes_entry_witness :
    (drop_table sampleCat oneState sampleId).fst = .ok () ∧
      table_exists sampleCat (drop_table sampleCat oneState sampleId).snd sampleId
          = false ∧
      load_table sampleDecode sampleCat (drop_table sampleCat oneState sampleId).snd
          sampleId = .error .NotFound :=
  ⟨rfl,
    (drop_table_removes_entry sampleDecode sampleCat oneState sampleId).2.2 rfl⟩

/-- C5 witness: the key-uniqueness invariant evaluated through one register,
one update and one drop starting from the one-row registry. -/
theorem primary_key_invariant_preserved_witness :
    pkUniq oneState.registry = true ∧
      pkUniq (register_table sampleDecode sampleCat oneState sampleId
          locV1).snd.registry = true ∧
      pkUniq (update_table sampleDecode sampleCat oneState sampleId locV2
          locV1).snd.registry = true ∧
      pkUniq (drop_table sampleCat oneState sampleId).snd.registry = true :=
  ⟨rfl,
    (primary_key_invariant_preserved sampleDecode sampleCat oneState sampleId locV1
        locV2 locV1).2.1 rfl,
    (primary_key_invariant_preserved sampleDecode sampleCat oneState sampleId locV1
        locV2 locV1).2.2.1 rfl,
    (primary_key_invariant_preserved sampleDecode sampleCat oneState sampleId locV1
        locV2 locV1).2.2.2 rfl⟩

/-- C6 witness: on the one-row registry, `table_exists` agrees with "exactly
one entry matches". -/
theorem table_exists_iff_unique_match_witness :
    pkUniq oneState.registry = true ∧
      (table_exists sampleCat oneState sampleId = true ↔
        (oneState.registry.filter (entryMatches sampleCat sampleId)).length = 1) :=
  ⟨rfl, table_exists_iff_unique_match sampleCat oneState sampleId rfl⟩

/-- C10 witness: registering over a store whose reads all fail leaves the
inserted row behind while the call reports an error. -/
theorem register_table_not_atomic_witness :
    (∀ e ∈ failState.registry, entryMatches sampleCat sampleId e = false) ∧
      failState.store locV1 = none ∧
      isOk (register_table sampleDecode sampleCat failState sampleId locV1).fst
          = false ∧
      newEntry sampleCat sampleId locV1 ∈
        (register_table sampleDecode sampleCat failState sampleId locV1).snd.registry :=
  ⟨fun e he => absurd he (List.not_mem_nil e), rfl,
    (register_table_not_atomic sampleDecode sampleCat failState sampleId locV1
      (fun e he => absurd he (List.not_mem_nil e)) (Or.inl rfl)).1,
    (register_table_not_atomic sampleDecode sampleCat failState sampleId locV1
      (fun e he => absurd he (List.not_mem_nil e)) (Or.inl rfl)).2⟩

end IcebergCatalogPostgres
